import Mathlib

/-!
Shallow embedding of the pydantic-collections repository
(src/pydantic_collections/{core,sequence,mapping,external_utils}.py)
together with theorems settling the frozen claims about it.

The element universe is a small concrete model of the Python values the
tests exercise: model instances (the User model of the test suite and a
subclass of it), strings, integers, dicts and lists.  The validation
engine (pydantic) is external to src/ and is modelled from the spec as an
abstract adapter function plus one concrete instance for the User model.
-/

/-- Runtime classes of the value universe.  userT is the User model of the
test suite; adminT is a proper subclass of it (used to probe the
isinstance-based pre-check); the rest are builtin Python classes. -/
inductive PyType where
  | userT
  | adminT
  | strT
  | intT
  | dictT
  | listT
deriving DecidableEq

/-- The method resolution chain of each class, the class itself first.
adminT subclasses userT; every other class only inherits from object. -/
def ancestors : PyType → List PyType
  | .userT => [.userT]
  | .adminT => [.adminT, .userT]
  | .strT => [.strT]
  | .intT => [.intT]
  | .dictT => [.dictT]
  | .listT => [.listT]

/-- Python values: a model instance tagged with its runtime class and
carrying the two User fields, plus strings, ints, dicts and lists. -/
inductive PyValue where
  | user (tp : PyType) (name : String) (age : Int)
  | str (s : String)
  | int (n : Int)
  | dict (entries : List (String × PyValue))
  | list (elems : List PyValue)

/-- The runtime class of a value (type(value) in Python). -/
def typeOf : PyValue → PyType
  | .user tp _ _ => tp
  | .str _ => .strT
  | .int _ => .intT
  | .dict _ => .dictT
  | .list _ => .listT

/-- One component of a pydantic error location: an index or a key. -/
inductive LocItem where
  | idx (i : Int)
  | key (s : String)
deriving DecidableEq

/-- One structured engine error record, as in pydantic ErrorDetails:
the error kind, its location, the offending input and the ctx class. -/
structure EngineError where
  etype : String
  loc : List LocItem
  input : Option PyValue
  ctxClass : Option String

/-- An aggregated pydantic ValidationError: a title (the collection class
name in core.py) and the list of line errors. -/
structure ValidationError where
  title : String
  errors : List EngineError

/-- Declared element type expressions: a plain class or a union of two
expressions (unions of more nest).  This covers the two branches of
get_types_from_annotation that the claims exercise; generic aliases are
not part of the universe. -/
inductive PyAnnot where
  | tyAnn (t : PyType)
  | unionAnn (a b : PyAnnot)
deriving DecidableEq

/-- Printable name of a class, as str(cls) would show it. -/
def pyTypeName : PyType → String
  | .userT => "User"
  | .adminT => "AdminUser"
  | .strT => "str"
  | .intT => "int"
  | .dictT => "dict"
  | .listT => "list"

/-- String rendering of a declared element type (str(annotation) in
core.py, used as the expected class in the strict pre-check error). -/
def annotStr : PyAnnot → String
  | .tyAnn t => pyTypeName t
  | .unionAnn a b => "Union[" ++ annotStr a ++ ", " ++ annotStr b ++ "]"

/-- external_utils.get_types_from_annotation: decompose a possibly-union
type expression into the list of concrete member classes (unions expand
recursively, a bare class yields itself). -/
def get_types_from_annot : PyAnnot → List PyType
  | .tyAnn t => [t]
  | .unionAnn a b => get_types_from_annot a ++ get_types_from_annot b

/-- isinstance(value, tuple(types)): true when the runtime class of the
value has one of the given classes among its ancestors. -/
def isInstanceOfAny (v : PyValue) (ts : List PyType) : Bool :=
  ts.any (fun t => decide (t ∈ ancestors (typeOf v)))

/-- CollectionModelConfig: the two boolean policy toggles consulted by
BaseCollectionModel._validate_element. -/
structure CollectionConfig where
  validate_assignment : Bool
  validate_assignment_strict : Bool

/-- The default model_config of BaseCollectionModel: both toggles on. -/
def defaultCfg : CollectionConfig := ⟨true, true⟩

/-- The config of the Weak collections in the tests: strict off. -/
def weakCfg : CollectionConfig := ⟨true, false⟩

/-- A compiled validator (pydantic TypeAdapter.validate_python with
from_attributes fixed): given a raw value and the strict flag it returns
the validated element or the structured engine error list. -/
def Adapter : Type := PyValue → Bool → Except (List EngineError) PyValue

/-- external_utils.wrap_errors_with_loc: prefix every engine error
location with the element location, all other keys unchanged. -/
def wrap_errors_with_loc (errors : List EngineError) (locPre : List LocItem) :
    List EngineError :=
  errors.map (fun e =>
    ⟨EngineError.etype e, locPre ++ EngineError.loc e,
      EngineError.input e, EngineError.ctxClass e⟩)

/-- BaseCollectionModel._validate_element_type: the strict pre-check.
If the value is not an instance of any class of the decomposed element
type expression, fail with a single is_instance_of error at the given
location citing str(annotation); otherwise succeed. -/
def validate_element_type (cn : String) (an : PyAnnot) (v : PyValue)
    (loc : List LocItem) : Except ValidationError Unit :=
  if isInstanceOfAny v (get_types_from_annot an) then Except.ok ()
  else Except.error ⟨cn, [⟨"is_instance_of", loc, some v, some (annotStr an)⟩]⟩

/-- The adapter stage of BaseCollectionModel._validate_element: run the
compiled validator; on failure re-raise one aggregated ValidationError
titled with the collection class name whose line errors are the engine
errors with the element location put in front of each. -/
def adapterStage (cn : String) (ad : Adapter) (v : PyValue) (strict : Bool)
    (loc : List LocItem) : Except ValidationError PyValue :=
  match ad v strict with
  | Except.ok w => Except.ok w
  | Except.error errs => Except.error ⟨cn, wrap_errors_with_loc errs loc⟩

/-- BaseCollectionModel._validate_element: return the value untouched when
validate_assignment is off; otherwise run the strict pre-check when the
strict toggle is on and then the compiled validator with the
corresponding strict flag. -/
def validate_element (cfg : CollectionConfig) (cn : String) (an : PyAnnot)
    (ad : Adapter) (v : PyValue) (loc : List LocItem) :
    Except ValidationError PyValue :=
  if cfg.validate_assignment = false then Except.ok v
  else if cfg.validate_assignment_strict then
    match validate_element_type cn an v loc with
    | Except.error e => Except.error e
    | Except.ok _ => adapterStage cn ad v true loc
  else adapterStage cn ad v false loc

/-- Field lookup in a dict value. -/
def lookupField (es : List (String × PyValue)) (k : String) : Option PyValue :=
  match es with
  | [] => none
  | e :: r => if e.1 = k then some e.2 else lookupField r k

/-- Modelled from the spec: the external validation engine (pydantic, out
of src/) compiled for the User element model of the test suite.  Per the
engine contract of spec section 6 it accepts instances of the class or a
subclass in both modes, coerces a correctly shaped dict in non-strict
mode only, and rejects everything else with a structured error. -/
def userValidate : Adapter := fun v strict =>
  match v with
  | .user tp n a =>
    if PyType.userT ∈ ancestors tp then Except.ok (.user tp n a)
    else Except.error [⟨"model_type", [], some (.user tp n a), some "User"⟩]
  | .dict es =>
    if strict then Except.error [⟨"model_type", [], some (.dict es), some "User"⟩]
    else
      match lookupField es "name", lookupField es "age" with
      | some (.str n), some (.int a) => Except.ok (.user .userT n a)
      | _, _ => Except.error [⟨"missing", [LocItem.key "name"], none, none⟩]
  | w => Except.error [⟨"model_type", [], some w, some "User"⟩]

/-- The declared element type of the UsersSequence test class. -/
def annotUser : PyAnnot := .tyAnn .userT

/-- Concrete User instances mirroring the test fixtures. -/
def u0 : PyValue := .user .userT "Name 0" 0

/-- Second fixture user. -/
def u1 : PyValue := .user .userT "Name 1" 1

/-- A further valid User instance used as replacement value. -/
def u2 : PyValue := .user .userT "X" 5

/-- A Python slice object: start, stop and step, each possibly None. -/
structure PySlice where
  start : Option Int
  stop : Option Int
  step : Option Int

/-- The value list of Python range(start, stop, step) for a nonzero step;
for step 0 (which range rejects) it returns the empty list. -/
def rangeList (start stop step : Int) : List Int :=
  let count : Nat :=
    if step > 0 then ((stop - start + step - 1).ediv step).toNat
    else if step < 0 then ((start - stop - step - 1).ediv (-step)).toNat
    else 0
  (List.range count).map (fun k => start + step * (k : Int))

/-- PydanticSequence._get_index_range: default a None step to 1, a None
start to 0 and a None stop to the current length, then build
range(start, stop, step or 1) - the falsy step 0 is also replaced by 1. -/
def getIndexRange (root : List PyValue) (sl : PySlice) : List Int :=
  let step : Int := (PySlice.step sl).getD 1
  let start : Int := (PySlice.start sl).getD 0
  let stop : Int := (PySlice.stop sl).getD (root.length : Int)
  rangeList start stop (if step = 0 then 1 else step)

/-- Follows the words of claim C10: target indices computed as
range(start, stop, step) where only None components are defaulted.  With
an explicit step 0 that range call is undefined (Python raises), hence
the Option result. -/
def claimedIndexRange (root : List PyValue) (sl : PySlice) :
    Option (List Int) :=
  let step : Int := (PySlice.step sl).getD 1
  let start : Int := (PySlice.start sl).getD 0
  let stop : Int := (PySlice.stop sl).getD (root.length : Int)
  if step = 0 then none else some (rangeList start stop step)

/-- The element positions slice.indices-based Python slice semantics
would select on a store of length n: bounds are normalized against the
length and clamped before the range is taken. -/
def pySliceIndices (n : Nat) (sl : PySlice) : List Int :=
  let step : Int := (PySlice.step sl).getD 1
  if step = 0 then []
  else
    let nI : Int := n
    let lower : Int := if step < 0 then -1 else 0
    let upper : Int := if step < 0 then nI - 1 else nI
    let start : Int :=
      match PySlice.start sl with
      | none => if step < 0 then upper else lower
      | some s => if s < 0 then max (s + nI) lower else min s upper
    let stop : Int :=
      match PySlice.stop sl with
      | none => if step < 0 then lower else upper
      | some s => if s < 0 then max (s + nI) lower else min s upper
    rangeList start stop step

/-- list(self.root[index]) for a slice index: the elements at the
positions Python slice semantics selects. -/
def pySliceList (l : List PyValue) (sl : PySlice) : List PyValue :=
  (pySliceIndices l.length sl).filterMap (fun i => l.get? i.toNat)

/-- Python list item assignment self.root[i] = v: negative indices wrap
once; out of range raises IndexError (modelled as none). -/
def pyListSet (l : List PyValue) (i : Int) (v : PyValue) :
    Option (List PyValue) :=
  let n : Int := l.length
  let j : Int := if i < 0 then i + n else i
  if 0 ≤ j ∧ j < n then some (l.set j.toNat v) else none

/-- Insertion of an element at a position of a list. -/
def insertAt (l : List PyValue) (j : Nat) (v : PyValue) : List PyValue :=
  l.take j ++ v :: l.drop j

/-- Python list.insert(i, v): negative indices wrap and both ends clamp,
so insertion never fails. -/
def pyListInsert (l : List PyValue) (i : Int) (v : PyValue) : List PyValue :=
  let n : Int := l.length
  let j : Int := if i < 0 then max (i + n) 0 else min i n
  insertAt l j.toNat v

/-- PydanticSequence.insert: validate the value at location (index,) and
then insert it before that index. -/
def seqInsert (cfg : CollectionConfig) (cn : String) (an : PyAnnot)
    (ad : Adapter) (root : List PyValue) (i : Int) (v : PyValue) :
    Except ValidationError (List PyValue) :=
  match validate_element cfg cn an ad v [LocItem.idx i] with
  | Except.error e => Except.error e
  | Except.ok w => Except.ok (pyListInsert root i w)

/-- MutableSequence.append as inherited by PydanticSequence: it calls
insert(len(self), value). -/
def seqAppend (cfg : CollectionConfig) (cn : String) (an : PyAnnot)
    (ad : Adapter) (root : List PyValue) (v : PyValue) :
    Except ValidationError (List PyValue) :=
  seqInsert cfg cn an ad root (root.length : Int) v

/-- Outcome of a __setitem__ call: the store as left behind on return or
at the moment the exception is raised, tagged by what happened. -/
inductive SetOutcome where
  | ok (store : List PyValue)
  | arityErr (store : List PyValue)
  | valErr (store : List PyValue) (e : ValidationError)
  | idxErr (store : List PyValue)

/-- PydanticSequence.__setitem__ with an integer index: validate at
location (index,) and then assign. -/
def seqSetItemInt (cfg : CollectionConfig) (cn : String) (an : PyAnnot)
    (ad : Adapter) (root : List PyValue) (i : Int) (v : PyValue) :
    SetOutcome :=
  match validate_element cfg cn an ad v [LocItem.idx i] with
  | Except.error e => SetOutcome.valErr root e
  | Except.ok w =>
    match pyListSet root i w with
    | some r2 => SetOutcome.ok r2
    | none => SetOutcome.idxErr root

/-- The loop of the slice branch of PydanticSequence.__setitem__:
zip(self._get_index_range(index), value, strict=True) pulls one index and
one value at a time, validates at the index and assigns; the strict zip
raises its arity error only when one side runs out first, with the
assignments already made still in place. -/
def setSliceAux (cfg : CollectionConfig) (cn : String) (an : PyAnnot)
    (ad : Adapter) : List Int → List PyValue → List PyValue → SetOutcome
  | [], [], store => SetOutcome.ok store
  | [], _ :: _, store => SetOutcome.arityErr store
  | _ :: _, [], store => SetOutcome.arityErr store
  | i :: is, v :: vs, store =>
    match validate_element cfg cn an ad v [LocItem.idx i] with
    | Except.error e => SetOutcome.valErr store e
    | Except.ok w =>
      match pyListSet store i w with
      | none => SetOutcome.idxErr store
      | some store2 => setSliceAux cfg cn an ad is vs store2

/-- PydanticSequence.__setitem__ with a slice index. -/
def seqSetItemSlice (cfg : CollectionConfig) (cn : String) (an : PyAnnot)
    (ad : Adapter) (root : List PyValue) (sl : PySlice)
    (vals : List PyValue) : SetOutcome :=
  setSliceAux cfg cn an ad (getIndexRange root sl) vals root

/-- The store obtained by validating and assigning every index-value pair
in order, used to describe the store the slice-assignment loop leaves
behind. -/
def applyPairs (cfg : CollectionConfig) (cn : String) (an : PyAnnot)
    (ad : Adapter) (store : List PyValue) (prs : List (Int × PyValue)) :
    List PyValue :=
  prs.foldl (fun st pr =>
    match validate_element cfg cn an ad pr.2 [LocItem.idx pr.1] with
    | Except.ok w => (pyListSet st pr.1 w).getD st
    | Except.error _ => st) store

/-- Whether an Except value is a success. -/
def exceptOk {e a : Type} : Except e a → Bool
  | Except.ok _ => true
  | Except.error _ => false

/-- What PydanticSequence.__init__ can raise: the explicit conflict
ValueError, the root validation error raised by the model when keyword
data stands in for the root, or an element validation error from the
bulk validation of the root list. -/
inductive InitErr where
  | conflict
  | rootType
  | valErr (e : ValidationError)

/-- Per-element bulk validation of the root list at construction time:
each element is validated non-strict at its index and all failing
locations are collected, mirroring how the model validates the root
value against the declared list type.  Returns the collected line errors
and the validated elements. -/
def constructAux (ad : Adapter) (i : Nat) :
    List PyValue → List EngineError × List PyValue
  | [] => ([], [])
  | v :: vs =>
    let r := constructAux ad (i + 1) vs
    match ad v false with
    | Except.ok w => (r.1, w :: r.2)
    | Except.error es =>
      (wrap_errors_with_loc es [LocItem.idx (i : Int)] ++ r.1, r.2)

/-- Validation of the full root list at construction time, raising one
aggregated error titled with the collection class name on any failure. -/
def constructRoot (cn : String) (ad : Adapter) (vals : List PyValue) :
    Except InitErr (List PyValue) :=
  let r := constructAux ad 0 vals
  match r.1 with
  | [] => Except.ok r.2
  | es => Except.error (InitErr.valErr ⟨cn, es⟩)

/-- PydanticSequence.__init__: a None root becomes the empty list; a
non-empty root together with keyword data raises the conflict ValueError;
otherwise keyword data alone is handed to the model initializer (which
validates the keyword dict as the root against the declared list type and
fails for sequences), and in the remaining case root + list(data) is
validated as the store.  Positional data supplied next to keyword data is
silently dropped by this control flow. -/
def seqInit (cn : String) (ad : Adapter) (data : List PyValue)
    (rootArg : Option (List PyValue)) (kwargs : List (String × PyValue)) :
    Except InitErr (List PyValue) :=
  let root := rootArg.getD []
  match root.isEmpty, kwargs.isEmpty with
  | false, false => Except.error InitErr.conflict
  | _, false => Except.error InitErr.rootType
  | _, true => constructRoot cn ad (root ++ data)

/-- PydanticSequence.__getitem__ with a slice index: the source evaluates
self.__class__(self.root[index]), which passes the sliced list as one
positional datum to __init__. -/
def seqGetItemSlice (cn : String) (ad : Adapter) (root : List PyValue)
    (sl : PySlice) : Except InitErr (List PyValue) :=
  seqInit cn ad [PyValue.list (pySliceList root sl)] none []

/-- JSON values produced and consumed by the external engine. -/
inductive JsonValue where
  | jstr (s : String)
  | jint (n : Int)
  | jarr (elems : List JsonValue)
  | jobj (fields : List (String × JsonValue))

/-- Modelled from the spec: the engine encodes a sequence collection as
the array of its encoded elements (spec section 6). -/
def seqDump {a : Type} (enc : a → JsonValue) (root : List a) : JsonValue :=
  JsonValue.jarr (root.map enc)

/-- Elementwise decoding of a list of encoded elements. -/
def decodeAll {a : Type} (dec : JsonValue → Option a) :
    List JsonValue → Option (List a)
  | [] => some []
  | j :: js =>
    match dec j, decodeAll dec js with
    | some x, some xs => some (x :: xs)
    | _, _ => none

/-- Modelled from the spec: the engine decodes a sequence collection from
an array by decoding every element; anything else is rejected. -/
def seqDecode {a : Type} (dec : JsonValue → Option a) :
    JsonValue → Option (List a)
  | JsonValue.jarr l => decodeAll dec l
  | _ => none

/-- Modelled from the spec: the engine encodes a mapping collection as
the object of its encoded elements keyed by the store keys. -/
def mapDump {a : Type} (enc : a → JsonValue) (store : List (String × a)) :
    JsonValue :=
  JsonValue.jobj (store.map (fun p => (p.1, enc p.2)))

/-- Elementwise decoding of the fields of an encoded mapping. -/
def decodePairs {a : Type} (dec : JsonValue → Option a) :
    List (String × JsonValue) → Option (List (String × a))
  | [] => some []
  | p :: ps =>
    match dec p.2, decodePairs dec ps with
    | some x, some xs => some ((p.1, x) :: xs)
    | _, _ => none

/-- Modelled from the spec: the engine decodes a mapping collection from
an object by decoding every field value; anything else is rejected. -/
def mapDecode {a : Type} (dec : JsonValue → Option a) :
    JsonValue → Option (List (String × a))
  | JsonValue.jobj l => decodePairs dec l
  | _ => none

/-- Encoder of the User element model. -/
def userEnc : PyValue → JsonValue
  | .user _ n a => JsonValue.jobj [("name", .jstr n), ("age", .jint a)]
  | _ => JsonValue.jobj []

/-- Decoder used in the round-trip witness: inverts jint. -/
def intDec : JsonValue → Option Int
  | JsonValue.jint n => some n
  | _ => none

/-- An Element descriptor: the declared element type expression bound to
a fresh compiled validator handle, one per specialized class. -/
structure ElementDesc where
  annot : PyAnnot
  descId : Nat

/-- A specialized collection class: its identity and its descriptor. -/
structure SpecClass where
  classId : Nat
  element : ElementDesc

/-- An element type argument for specialization: its identity as a type
expression and whether hashing it succeeds. -/
structure ElType where
  annot : PyAnnot
  hashable : Bool

/-- The process-wide specialization state: the tp_cache table keyed by
(container base class, element type) and a fresh-identity counter (each
Python type() call yields a new class object). -/
structure SpecState where
  cache : List ((String × PyAnnot) × SpecClass)
  nextId : Nat

/-- Lookup in the tp_cache table. -/
def cacheFind (c : List ((String × PyAnnot) × SpecClass))
    (k : String × PyAnnot) : Option SpecClass :=
  match c with
  | [] => none
  | e :: rest => if e.1 = k then some e.2 else cacheFind rest k

/-- BaseCollectionModelMeta.__getitem__ without the cache: build a new
class carrying a new Element descriptor compiled from the element type. -/
def buildClass (el : ElType) (st : SpecState) : SpecClass × SpecState :=
  (⟨st.nextId, ⟨ElType.annot el, st.nextId⟩⟩, ⟨st.cache, st.nextId + 1⟩)

/-- tp_cache wrapped around the metaclass __getitem__: a hashable key is
looked up in the table (populated on miss); hashing failure for an
unhashable key is suppressed and the build runs uncached. -/
def getitemSpec (base : String) (el : ElType) (st : SpecState) :
    SpecClass × SpecState :=
  if ElType.hashable el then
    match cacheFind st.cache (base, ElType.annot el) with
    | some c => (c, st)
    | none =>
      let b := buildClass el st
      (b.1, ⟨((base, ElType.annot el), b.1) :: SpecState.cache b.2,
        SpecState.nextId b.2⟩)
  else buildClass el st

/-- Two successive specializations of the same base with the same
element type, threading the process-wide state. -/
def specializeTwice (base : String) (el : ElType) (st : SpecState) :
    SpecClass × SpecClass × SpecState :=
  let r1 := getitemSpec base el st
  let r2 := getitemSpec base el r1.2
  (r1.1, r2.1, r2.2)

/-- C3 (confirmed): when the compiled validator rejects a value written
through element mutation, the raised error is one aggregated
ValidationError titled with the calling collection class name, and every
engine error location is re-based by putting the element location tuple
in front of it; the integer item assignment raises exactly this error
with the store untouched. -/
theorem c3_adapter_failure_wrapped_with_location
    (cfg : CollectionConfig) (cn : String) (an : PyAnnot) (ad : Adapter)
    (root : List PyValue) (i : Int) (v : PyValue) (errs : List EngineError)
    (h1 : cfg.validate_assignment = true)
    (h2 : cfg.validate_assignment_strict = true →
      validate_element_type cn an v [LocItem.idx i] = Except.ok ())
    (h3 : ad v cfg.validate_assignment_strict = Except.error errs) :
    validate_element cfg cn an ad v [LocItem.idx i]
      = Except.error ⟨cn, wrap_errors_with_loc errs [LocItem.idx i]⟩ ∧
    (wrap_errors_with_loc errs [LocItem.idx i]).map EngineError.loc
      = errs.map (fun e => LocItem.idx i :: EngineError.loc e) ∧
    seqSetItemInt cfg cn an ad root i v
      = SetOutcome.valErr root ⟨cn, wrap_errors_with_loc errs [LocItem.idx i]⟩ := by
  have hv : validate_element cfg cn an ad v [LocItem.idx i]
      = Except.error ⟨cn, wrap_errors_with_loc errs [LocItem.idx i]⟩ := by
    cases hs : cfg.validate_assignment_strict with
    | true =>
      rw [hs] at h3
      simp [validate_element, h1, hs, h2 hs, adapterStage, h3]
    | false =>
      rw [hs] at h3
      simp [validate_element, h1, hs, adapterStage, h3]
  refine ⟨hv, ?_, ?_⟩
  · simp only [wrap_errors_with_loc, List.map_map]
    rfl
  · simp [seqSetItemInt, hv]

/-- C3 witness: a weak UsersSequence assignment of a plain string at
index 0 raises one UsersSequence-titled error whose location is the
element index prefixed onto the engine location. -/
theorem c3_witness_weak_string_assignment :
    validate_element weakCfg "WeakUsersSequence" annotUser userValidate
        (PyValue.str "user") [LocItem.idx 0]
      = Except.error ⟨"WeakUsersSequence",
          wrap_errors_with_loc
            [⟨"model_type", [], some (PyValue.str "user"), some "User"⟩]
            [LocItem.idx 0]⟩ ∧
    (wrap_errors_with_loc
        [⟨"model_type", [], some (PyValue.str "user"), some "User"⟩]
        [LocItem.idx 0]).map EngineError.loc
      = [⟨"model_type", [], some (PyValue.str "user"), some "User"⟩].map
          (fun e => LocItem.idx 0 :: EngineError.loc e) ∧
    seqSetItemInt weakCfg "WeakUsersSequence" annotUser userValidate
        [u0] 0 (PyValue.str "user")
      = SetOutcome.valErr [u0] ⟨"WeakUsersSequence",
          wrap_errors_with_loc
            [⟨"model_type", [], some (PyValue.str "user"), some "User"⟩]
            [LocItem.idx 0]⟩ :=
  c3_adapter_failure_wrapped_with_location weakCfg "WeakUsersSequence"
    annotUser userValidate [u0] 0 (PyValue.str "user")
    [⟨"model_type", [], some (PyValue.str "user"), some "User"⟩]
    rfl (fun h => absurd h (by decide)) rfl

/-- C9 (confirmed): the strict pre-check is isinstance based: a value
whose runtime class is a proper subclass of one of the admissible
classes passes the pre-check and validation proceeds to the strict
adapter pass rather than failing with the instance-type error. -/
theorem c9_precheck_isinstance_accepts_subclass
    (cfg : CollectionConfig) (cn : String) (an : PyAnnot) (ad : Adapter)
    (v : PyValue) (loc : List LocItem) (t : PyType)
    (h1 : cfg.validate_assignment = true)
    (h2 : cfg.validate_assignment_strict = true)
    (h3 : t ∈ get_types_from_annot an)
    (h4 : t ∈ ancestors (typeOf v))
    (_h5 : typeOf v ≠ t) :
    validate_element_type cn an v loc = Except.ok () ∧
    validate_element cfg cn an ad v loc = adapterStage cn ad v true loc := by
  have hinst : isInstanceOfAny v (get_types_from_annot an) = true := by
    simp only [isInstanceOfAny, List.any_eq_true, decide_eq_true_eq]
    exact ⟨t, h3, h4⟩
  constructor
  · simp [validate_element_type, hinst]
  · simp [validate_element, h1, h2, validate_element_type, hinst]

/-- C9 witness: an AdminUser instance, whose class is a proper subclass
of the declared User class, passes the strict pre-check of a
UsersSequence and is handed to the strict adapter pass. -/
theorem c9_witness_admin_user :
    validate_element_type "UsersSequence" annotUser
        (PyValue.user PyType.adminT "A" 1) [LocItem.idx 0] = Except.ok () ∧
    validate_element defaultCfg "UsersSequence" annotUser userValidate
        (PyValue.user PyType.adminT "A" 1) [LocItem.idx 0]
      = adapterStage "UsersSequence" userValidate
          (PyValue.user PyType.adminT "A" 1) true [LocItem.idx 0] :=
  c9_precheck_isinstance_accepts_subclass defaultCfg "UsersSequence"
    annotUser userValidate (PyValue.user PyType.adminT "A" 1) [LocItem.idx 0]
    PyType.userT rfl rfl (by decide) (by decide) (by decide)

/-- C7 (confirmed): given any element encoder and decoder that round-trip
at the element level (the engine contract), decoding the encoded form of
a sequence store or a mapping store built from valid elements yields the
store unchanged, in both the JSON and the python dump modes covered by
the same structural encoding. -/
theorem c7_roundtrip_encode_decode {a : Type}
    (enc : a → JsonValue) (dec : JsonValue → Option a)
    (h : ∀ x, dec (enc x) = some x)
    (root : List a) (store : List (String × a)) :
    seqDecode dec (seqDump enc root) = some root ∧
    mapDecode dec (mapDump enc store) = some store := by
  constructor
  · show decodeAll dec (root.map enc) = some root
    induction root with
    | nil => rfl
    | cons x xs ih => simp [decodeAll, h, ih]
  · show decodePairs dec (store.map _) = some store
    induction store with
    | nil => rfl
    | cons p ps ih => simp [decodePairs, h, ih]

/-- C7 witness: a concrete round trip of an integer sequence store and
an integer mapping store. -/
theorem c7_witness_int_elements :
    seqDecode intDec (seqDump JsonValue.jint [1, 2]) = some [1, 2] ∧
    mapDecode intDec (mapDump JsonValue.jint [("a", 3)]) = some [("a", 3)] :=
  c7_roundtrip_encode_decode JsonValue.jint intDec (fun _ => rfl)
    [1, 2] [("a", 3)]

/-- C8 (confirmed): specializing the same base with the same hashable
element type twice returns the identical cached class, while an
unhashable element type bypasses the cache (the table is never touched)
and yields a fresh class identity on every call. -/
theorem c8_specialization_cache_behavior (base : String) (el : ElType)
    (st : SpecState) :
    (ElType.hashable el = true →
      (specializeTwice base el st).2.1 = (specializeTwice base el st).1) ∧
    (ElType.hashable el = false →
      SpecClass.classId (specializeTwice base el st).2.1
        ≠ SpecClass.classId (specializeTwice base el st).1 ∧
      SpecState.cache (getitemSpec base el st).2 = SpecState.cache st ∧
      SpecState.cache (specializeTwice base el st).2.2 = SpecState.cache st) := by
  constructor
  · intro h
    cases hc : cacheFind (SpecState.cache st) (base, ElType.annot el) with
    | some c => simp [specializeTwice, getitemSpec, h, hc]
    | none =>
      simp [specializeTwice, getitemSpec, h, hc, buildClass, cacheFind]
  · intro h
    refine ⟨?_, ?_, ?_⟩ <;> simp [specializeTwice, getitemSpec, h, buildClass]

/-- C1 counterexample: an AdminUser instance has a runtime class that is
not among the decomposed admissible classes of the declared User
element type, yet appending it to a strict UsersSequence raises nothing
and stores it - the claim quantified over values whose runtime type is
not among the admissible types is false on the code. -/
theorem c1_subclass_value_not_in_admissible_types_mutates :
    typeOf (PyValue.user PyType.adminT "A" 1)
      ∉ get_types_from_annot annotUser ∧
    seqAppend defaultCfg "UsersSequence" annotUser userValidate [u0]
        (PyValue.user PyType.adminT "A" 1)
      = Except.ok [u0, PyValue.user PyType.adminT "A" 1] :=
  ⟨by decide, rfl⟩

/-- C1 amended (proved): with strict policy on, every value that is not
an instance (isinstance, subclasses included) of any admissible class is
rejected by append, insert and item assignment with a structured error
at the element location citing str(annotation) as the expected class,
independently of the adapter, so before any coercion is attempted. -/
theorem c1_strict_non_instance_error_before_adapter
    (cfg : CollectionConfig) (cn : String) (an : PyAnnot) (ad : Adapter)
    (root : List PyValue) (i : Int) (v : PyValue)
    (h1 : cfg.validate_assignment = true)
    (h2 : cfg.validate_assignment_strict = true)
    (h3 : isInstanceOfAny v (get_types_from_annot an) = false) :
    seqInsert cfg cn an ad root i v
      = Except.error ⟨cn, [⟨"is_instance_of", [LocItem.idx i],
          some v, some (annotStr an)⟩]⟩ ∧
    seqAppend cfg cn an ad root v
      = Except.error ⟨cn, [⟨"is_instance_of", [LocItem.idx (root.length : Int)],
          some v, some (annotStr an)⟩]⟩ ∧
    seqSetItemInt cfg cn an ad root i v
      = SetOutcome.valErr root ⟨cn, [⟨"is_instance_of", [LocItem.idx i],
          some v, some (annotStr an)⟩]⟩ := by
  have key : ∀ loc, validate_element cfg cn an ad v loc
      = Except.error ⟨cn, [⟨"is_instance_of", loc, some v, some (annotStr an)⟩]⟩ := by
    intro loc
    simp [validate_element, h1, h2, validate_element_type, h3]
  refine ⟨?_, ?_, ?_⟩ <;> simp [seqInsert, seqAppend, seqSetItemInt, key]

/-- C1 witness: a plain string written into a strict UsersSequence is
rejected by all three mutation paths with the is_instance_of error at
the element location. -/
theorem c1_witness_string_rejected :
    seqInsert defaultCfg "UsersSequence" annotUser userValidate [u0] 0
        (PyValue.str "x")
      = Except.error ⟨"UsersSequence", [⟨"is_instance_of", [LocItem.idx 0],
          some (PyValue.str "x"), some "User"⟩]⟩ ∧
    seqAppend defaultCfg "UsersSequence" annotUser userValidate [u0]
        (PyValue.str "x")
      = Except.error ⟨"UsersSequence", [⟨"is_instance_of", [LocItem.idx 1],
          some (PyValue.str "x"), some "User"⟩]⟩ ∧
    seqSetItemInt defaultCfg "UsersSequence" annotUser userValidate [u0] 0
        (PyValue.str "x")
      = SetOutcome.valErr [u0] ⟨"UsersSequence", [⟨"is_instance_of",
          [LocItem.idx 0], some (PyValue.str "x"), some "User"⟩]⟩ :=
  c1_strict_non_instance_error_before_adapter defaultCfg "UsersSequence"
    annotUser userValidate [u0] 0 (PyValue.str "x") rfl rfl rfl

/-- C4 counterexample: appending an invalid value to a UsersSequence of
length 1 records error location index 1 (the actual post-append index),
not 1 + 1 as the claim states. -/
theorem c4_append_location_not_len_plus_one :
    seqAppend defaultCfg "UsersSequence" annotUser userValidate [u0]
        (PyValue.str "bad")
      = Except.error ⟨"UsersSequence", [⟨"is_instance_of", [LocItem.idx 1],
          some (PyValue.str "bad"), some "User"⟩]⟩ ∧
    [LocItem.idx 1] ≠ [LocItem.idx (1 + 1)] :=
  ⟨rfl, by decide⟩

/-- C4 amended (proved): append on a store of length N validates the
value with recorded error-location index N, which is the actual
actual post-append index, and then inserts at the end. -/
theorem c4_append_validates_at_current_length
    (cfg : CollectionConfig) (cn : String) (an : PyAnnot) (ad : Adapter)
    (root : List PyValue) (v : PyValue) :
    seqAppend cfg cn an ad root v
      = Except.map (pyListInsert root (root.length : Int))
          (validate_element cfg cn an ad v [LocItem.idx (root.length : Int)]) := by
  unfold seqAppend seqInsert Except.map
  cases validate_element cfg cn an ad v [LocItem.idx (root.length : Int)] <;> rfl

/-- C5 (code bug evaluated): reading a slice of a two-element
UsersSequence raises an aggregated validation error instead of returning
the sub-range, because __init__ receives the sliced list as one
positional element and validates it against the element type. -/
theorem c5_slice_read_raises_validation_error :
    seqGetItemSlice "UsersSequence" userValidate [u0, u1]
        ⟨some 0, some 1, none⟩
      = Except.error (InitErr.valErr ⟨"UsersSequence",
          [⟨"model_type", [LocItem.idx 0], some (PyValue.list [u0]),
            some "User"⟩]⟩) ∧
    exceptOk (seqGetItemSlice "UsersSequence" userValidate [u0, u1]
        ⟨some 0, some 1, none⟩) = false :=
  ⟨rfl, rfl⟩

/-- C6 counterexample: supplying positional data together with keyword
data does not raise the construction conflict error - the guard only
fires on a non-empty root, so the call falls through to the keyword
branch and fails with the root-type validation error instead. -/
theorem c6_positional_with_kwargs_no_conflict :
    seqInit "UsersSequence" userValidate [u0] none [("a", PyValue.str "x")]
      = Except.error InitErr.rootType ∧
    seqInit "UsersSequence" userValidate [u0] none [("a", PyValue.str "x")]
      ≠ Except.error InitErr.conflict := by
  refine ⟨rfl, fun h => ?_⟩
  rw [show seqInit "UsersSequence" userValidate [u0] none
      [("a", PyValue.str "x")] = Except.error InitErr.rootType from rfl] at h
  injection h with h2
  exact InitErr.noConfusion h2

/-- C6 amended (proved): supplying a non-empty existing sequence (the
root argument) together with keyword data raises the construction
conflict error, for any adapter and positional data. -/
theorem c6_root_with_kwargs_conflict (cn : String) (ad : Adapter)
    (data : List PyValue) (rootArg : Option (List PyValue))
    (kwargs : List (String × PyValue))
    (h1 : (rootArg.getD []).isEmpty = false)
    (h2 : kwargs.isEmpty = false) :
    seqInit cn ad data rootArg kwargs = Except.error InitErr.conflict := by
  simp [seqInit, h1, h2]

/-- C6 witness: a one-element root plus one keyword argument raises the
conflict error. -/
theorem c6_witness_conflict_concrete :
    seqInit "UsersSequence" userValidate [] (some [u0])
        [("a", PyValue.str "x")] = Except.error InitErr.conflict :=
  c6_root_with_kwargs_conflict "UsersSequence" userValidate [] (some [u0])
    [("a", PyValue.str "x")] rfl rfl

/-- C10 counterexample: a slice with the explicit step 0 on a length-2
store resolves to the indices of range(0, 2, 1) - the non-None step 0 is
also defaulted to 1, while the computation described by the claim,
range(0, 2, 0), is undefined (Python range rejects a zero step). -/
theorem c10_zero_step_also_defaulted :
    claimedIndexRange [u0, u1] ⟨some 0, some 2, some 0⟩ = none ∧
    getIndexRange [u0, u1] ⟨some 0, some 2, some 0⟩ = [0, 1] ∧
    claimedIndexRange [u0, u1] ⟨some 0, some 2, some 0⟩
      ≠ some (getIndexRange [u0, u1] ⟨some 0, some 2, some 0⟩) :=
  ⟨rfl, by decide, by decide⟩

/-- C10 amended (proved): for every slice whose step is not the explicit
zero, the resolved indices are exactly range over the None-defaulted
components as the claim describes (a zero step is additionally replaced
by 1), and negative bounds are used verbatim: on a length-3 store the
slice with start -2 resolves to indices differing from the element
positions Python slice semantics would select. -/
theorem c10_index_range_semantics (root : List PyValue) (sl : PySlice)
    (h : PySlice.step sl ≠ some 0) :
    claimedIndexRange root sl = some (getIndexRange root sl) ∧
    getIndexRange [u0, u1, u2] ⟨some (-2), none, none⟩ = [-2, -1, 0, 1, 2] ∧
    pySliceIndices 3 ⟨some (-2), none, none⟩ = [1, 2] ∧
    getIndexRange [u0, u1, u2] ⟨some (-2), none, none⟩
      ≠ pySliceIndices 3 ⟨some (-2), none, none⟩ := by
  refine ⟨?_, by decide, by decide, by decide⟩
  cases hs : PySlice.step sl with
  | none => simp [claimedIndexRange, getIndexRange, hs]
  | some s =>
    have hnz : s ≠ 0 := fun h0 => h (by rw [hs, h0])
    simp [claimedIndexRange, getIndexRange, hs, hnz]

/-- C10 witness: the default slice over a two-element store, whose step
is None rather than the explicit zero. -/
theorem c10_witness_default_slice :
    claimedIndexRange [u0, u1] ⟨some 0, some 2, none⟩
      = some (getIndexRange [u0, u1] ⟨some 0, some 2, none⟩) ∧
    getIndexRange [u0, u1, u2] ⟨some (-2), none, none⟩ = [-2, -1, 0, 1, 2] ∧
    pySliceIndices 3 ⟨some (-2), none, none⟩ = [1, 2] ∧
    getIndexRange [u0, u1, u2] ⟨some (-2), none, none⟩
      ≠ pySliceIndices 3 ⟨some (-2), none, none⟩ :=
  c10_index_range_semantics [u0, u1] ⟨some 0, some 2, none⟩ (by decide)

/-- Helper: an in-bounds Python list assignment succeeds and preserves
the length of the store. -/
theorem pyListSet_spec (l : List PyValue) (i : Int) (v : PyValue)
    (h1 : -(l.length : Int) ≤ i) (h2 : i < (l.length : Int)) :
    ∃ l2, pyListSet l i v = some l2 ∧ l2.length = l.length := by
  refine ⟨l.set (if i < 0 then i + (l.length : Int) else i).toNat v, ?_, by simp⟩
  have hc : 0 ≤ (if i < 0 then i + (l.length : Int) else i) ∧
      (if i < 0 then i + (l.length : Int) else i) < (l.length : Int) := by
    by_cases hneg : i < 0 <;> simp [hneg] <;> omega
  simp only [pyListSet, hc, and_self, if_true]

/-- Helper: when the resolved index count and the value count differ and
every zipped pair validates and lands in bounds, the strict-zip loop of
the slice assignment ends in the arity error with all zipped assignments
already applied to the store. -/
theorem setSliceAux_arity (cfg : CollectionConfig) (cn : String)
    (an : PyAnnot) (ad : Adapter) :
    ∀ (idxs : List Int) (vals store : List PyValue),
    (∀ pr ∈ List.zip idxs vals,
      exceptOk (validate_element cfg cn an ad pr.2 [LocItem.idx pr.1]) = true ∧
      -(store.length : Int) ≤ pr.1 ∧ pr.1 < (store.length : Int)) →
    idxs.length ≠ vals.length →
    setSliceAux cfg cn an ad idxs vals store
      = SetOutcome.arityErr (applyPairs cfg cn an ad store (List.zip idxs vals)) := by
  intro idxs
  induction idxs with
  | nil =>
    intro vals store h hlen
    cases vals with
    | nil => exact absurd rfl hlen
    | cons v vs => rfl
  | cons i is ih =>
    intro vals store h hlen
    cases vals with
    | nil => rfl
    | cons v vs =>
      have hhead := h (i, v) (by simp)
      obtain ⟨hok, hb1, hb2⟩ := hhead
      cases hv : validate_element cfg cn an ad v [LocItem.idx i] with
      | error e => rw [hv] at hok; exact absurd hok (by simp [exceptOk])
      | ok w =>
        obtain ⟨st2, hset, hlen2⟩ := pyListSet_spec store i w hb1 hb2
        have hlhs : setSliceAux cfg cn an ad (i :: is) (v :: vs) store
            = setSliceAux cfg cn an ad is vs st2 := by
          simp [setSliceAux, hv, hset]
        have hrhs : applyPairs cfg cn an ad store (List.zip (i :: is) (v :: vs))
            = applyPairs cfg cn an ad st2 (List.zip is vs) := by
          simp [applyPairs, hv, hset]
        rw [hlhs, hrhs]
        refine ih vs st2 ?_ (by simpa using hlen)
        intro pr hpr
        have := h pr (by simp [List.mem_cons, hpr])
        rw [hlen2]
        exact this

/-- C2 counterexample: assigning one value to the two-index slice 0:2 of
a two-element UsersSequence raises the strict-zip arity error, but the
first resolved index has already been assigned, so the store is changed. -/
theorem c2_arity_mismatch_store_modified :
    seqSetItemSlice defaultCfg "UsersSequence" annotUser userValidate
        [PyValue.user .userT "Name 0" 0, PyValue.user .userT "Name 1" 1]
        ⟨some 0, some 2, none⟩ [PyValue.user .userT "X" 5]
      = SetOutcome.arityErr
          [PyValue.user .userT "X" 5, PyValue.user .userT "Name 1" 1] ∧
    ([PyValue.user .userT "X" 5, PyValue.user .userT "Name 1" 1] : List PyValue)
      ≠ [PyValue.user .userT "Name 0" 0, PyValue.user .userT "Name 1" 1] := by
  refine ⟨rfl, fun h => ?_⟩
  injection h with hh ht
  injection hh with ha hb hc
  exact absurd hb (by decide)

/-- C2 amended (proved): when the resolved index count differs from the
value count and every zipped pair validates and is in bounds, slice
assignment raises the arity error, with the values already paired to the
leading resolved indices validated and stored - the store is not rolled
back to its pre-call contents. -/
theorem c2_arity_error_after_leading_assignments
    (cfg : CollectionConfig) (cn : String) (an : PyAnnot) (ad : Adapter)
    (root : List PyValue) (sl : PySlice) (vals : List PyValue)
    (h : ∀ pr ∈ List.zip (getIndexRange root sl) vals,
      exceptOk (validate_element cfg cn an ad pr.2 [LocItem.idx pr.1]) = true ∧
      -(root.length : Int) ≤ pr.1 ∧ pr.1 < (root.length : Int))
    (hlen : (getIndexRange root sl).length ≠ vals.length) :
    seqSetItemSlice cfg cn an ad root sl vals
      = SetOutcome.arityErr
          (applyPairs cfg cn an ad root (List.zip (getIndexRange root sl) vals)) :=
  setSliceAux_arity cfg cn an ad (getIndexRange root sl) vals root h hlen

/-- C2 witness: the concrete mismatched slice assignment of one valid
value to the slice 0:2 of a two-element store. -/
theorem c2_witness_concrete_mismatch :
    seqSetItemSlice defaultCfg "UsersSequence" annotUser userValidate
        [u0, u1] ⟨some 0, some 2, none⟩ [u2]
      = SetOutcome.arityErr
          (applyPairs defaultCfg "UsersSequence" annotUser userValidate
            [u0, u1]
            (List.zip (getIndexRange [u0, u1] ⟨some 0, some 2, none⟩) [u2])) :=
  c2_arity_error_after_leading_assignments defaultCfg "UsersSequence"
    annotUser userValidate [u0, u1] ⟨some 0, some 2, none⟩ [u2]
    (by decide) (by decide)

/-- C8 witness: specializing with a hashable User element type twice from
the empty cache returns the identical class, while an unhashable element
type yields two distinct class identities and never touches the cache. -/
theorem c8_witness_cache_hit_and_bypass :
    (specializeTwice "BaseCollectionModel" ⟨annotUser, true⟩ ⟨[], 0⟩).2.1
      = (specializeTwice "BaseCollectionModel" ⟨annotUser, true⟩ ⟨[], 0⟩).1 ∧
    (SpecClass.classId
        (specializeTwice "BaseCollectionModel" ⟨annotUser, false⟩ ⟨[], 0⟩).2.1
      ≠ SpecClass.classId
        (specializeTwice "BaseCollectionModel" ⟨annotUser, false⟩ ⟨[], 0⟩).1 ∧
     SpecState.cache
        (getitemSpec "BaseCollectionModel" ⟨annotUser, false⟩ ⟨[], 0⟩).2
      = SpecState.cache ⟨[], 0⟩ ∧
     SpecState.cache
        (specializeTwice "BaseCollectionModel" ⟨annotUser, false⟩ ⟨[], 0⟩).2.2
      = SpecState.cache ⟨[], 0⟩) :=
  ⟨(c8_specialization_cache_behavior "BaseCollectionModel"
      ⟨annotUser, true⟩ ⟨[], 0⟩).1 rfl,
   (c8_specialization_cache_behavior "BaseCollectionModel"
      ⟨annotUser, false⟩ ⟨[], 0⟩).2 rfl⟩
